import Mathlib

/-!
Verification development for the metadata aggregation core of the Exif
repository (`src/core/metadata_aggregator.py`).

The Python code is shallowly embedded: the filesystem and the external
decoding libraries (exifread, PIL, moviepy, eyed3, pdfplumber, docx) are
modelled as explicit environments supplying, per file path, the data those
libraries would return (or the exception they would raise); the pure logic
of the aggregator (dispatch, normalization, error handling, batch folding)
is translated function by function.  Python floats are modelled as `ℚ`
(the values involved are produced by a handful of exact divisions and
additions of small rationals); Python float division by zero raises
`ZeroDivisionError`, which is modelled by returning `none` from the
corresponding conversion.  Thread-pool execution is modelled as a fold
over an arbitrary completion order (a permutation of the submitted list):
each append to the shared result/error collectors is atomic in the source,
so any interleaving is one such order.
-/

set_option maxHeartbeats 1000000

namespace Exif

/-- A rational EXIF tag value, as exposed by exifread (`.num` / `.den`). -/
structure Rational where
  num : Int
  den : Int
deriving DecidableEq, Repr

/-- `float(r.num) / float(r.den)`: Python raises `ZeroDivisionError` when the
denominator is zero, modelled by `none`. -/
def ratVal (r : Rational) : Option ℚ :=
  if r.den = 0 then none else some ((r.num : ℚ) / (r.den : ℚ))

/-- The dictionary built by `_extract_gps_from_tags` on success. -/
structure GpsDict where
  latitude : ℚ
  longitude : ℚ
  latitude_ref : String
  longitude_ref : String
  altitude : Option ℚ
deriving DecidableEq, Repr

/-- The GPS-related EXIF tags of one image, as exposed by exifread:
each tag is either absent (`tags.get` returns `None`) or carries its
values.  Latitude/longitude carry a degree/minute/second rational triple,
the references carry strings, altitude a single rational. -/
structure GpsTags where
  lat : Option (Rational × Rational × Rational)
  latRef : Option String
  lon : Option (Rational × Rational × Rational)
  lonRef : Option String
  alt : Option Rational
deriving DecidableEq, Repr

/-- `convert_to_degrees` from `_extract_gps_from_tags`:
`d + m/60 + s/3600`; a zero denominator raises (→ `none`). -/
def convert_to_degrees (v : Rational × Rational × Rational) : Option ℚ := do
  let d ← ratVal v.1
  let m ← ratVal v.2.1
  let s ← ratVal v.2.2
  pure (d + m / 60 + s / 3600)

/-- `MetadataAggregator._extract_gps_from_tags` (lines 259-300): returns the
GPS dictionary, or `None` when any required tag is missing or any conversion
raises (the whole body is wrapped in `try/except → return None`). -/
def extract_gps_from_tags (t : GpsTags) : Option GpsDict :=
  match t.lat, t.latRef, t.lon, t.lonRef with
  | some lat, some lat_ref, some lon, some lon_ref =>
    match convert_to_degrees lat, convert_to_degrees lon with
    | some latv, some lonv =>
      let latitude := if lat_ref = "S" then -latv else latv
      let longitude := if lon_ref = "W" then -lonv else lonv
      match t.alt with
      | none => some ⟨latitude, longitude, lat_ref, lon_ref, none⟩
      | some a =>
        match ratVal a with
        | none => none
        | some altv => some ⟨latitude, longitude, lat_ref, lon_ref, some altv⟩
    | _, _ => none
  | _, _, _, _ => none

/-- `os.path.basename`: the part of the path after the last `/`. -/
def basename (p : String) : String :=
  String.mk ((p.toList.reverse.takeWhile (fun c => c ≠ '/')).reverse)

/-- `pathlib.Path(p).suffix`: the final component's extension, i.e.
`name[i:]` for `i = name.rfind('.')` when `0 < i < len(name) - 1`,
otherwise the empty string. -/
def pathSuffix (p : String) : String :=
  let name := (basename p).toList
  let afterDot := name.reverse.takeWhile (fun c => c ≠ '.')
  if 0 < afterDot.length ∧ afterDot.length + 1 < name.length then
    String.mk ('.' :: afterDot.reverse)
  else
    ""

/-- `str.lower()` on a path extension (character-wise ASCII lowering;
defined structurally so that it evaluates in the kernel). -/
def toLowerStr (s : String) : String :=
  String.mk (s.toList.map Char.toLower)

/-- `str.upper()` on a path extension. -/
def toUpperStr (s : String) : String :=
  String.mk (s.toList.map Char.toUpper)

/-- `MetadataAggregator.SUPPORTED_EXTENSIONS` (lines 59-64), in the
dictionary's insertion order. -/
def SUPPORTED_EXTENSIONS : List (String × List String) :=
  [("image", [".jpg", ".jpeg", ".png", ".gif", ".bmp", ".tiff", ".tif"]),
   ("video", [".mp4", ".avi", ".mov", ".mkv", ".wmv", ".flv", ".webm"]),
   ("audio", [".mp3", ".wav", ".flac", ".aac", ".ogg", ".m4a", ".wma"]),
   ("document", [".pdf", ".docx"])]

/-- `MetadataAggregator.detect_file_type` (lines 134-150): look up the
lower-cased extension in the table, returning the first matching category,
else `"unknown"`. -/
def detect_file_type (file_path : String) : String :=
  let ext := toLowerStr (pathSuffix file_path)
  match SUPPORTED_EXTENSIONS.find? (fun p => p.2.contains ext) with
  | some p => p.1
  | none => "unknown"

/-- A value stored in a metadata dictionary.  `vNone` is Python's `None`
(several extractors store `None`-valued fields); `vTime` is a datetime,
modelled as an opaque timestamp. -/
inductive Val where
  | vStr : String → Val
  | vInt : Int → Val
  | vQ : ℚ → Val
  | vTime : Int → Val
  | vGps : GpsDict → Val
  | vStrList : List String → Val
  | vNone : Val
deriving DecidableEq, Repr

/-- The filesystem/OS data behind the seven base fields every extractor
writes unconditionally: `os.path.getsize`, `magic` MIME type,
`os.path.getctime`, `os.path.getmtime`. -/
structure BaseInfo where
  size : Int
  mime : String
  ctime : Int
  mtime : Int
deriving DecidableEq, Repr

/-- The common prefix every `_process_*` method assigns first (e.g.
lines 186-196 for images), in the source's insertion order. -/
def base_fields (file_path : String) (cat : String) (b : BaseInfo) :
    List (String × Val) :=
  [("file_path", Val.vStr file_path),
   ("file_name", Val.vStr (basename file_path)),
   ("file_type", Val.vStr cat),
   ("file_size", Val.vInt b.size),
   ("mime_type", Val.vStr b.mime),
   ("created_date", Val.vTime b.ctime),
   ("modified_date", Val.vTime b.mtime)]

/-- Outcome of one guarded field extraction inside the EXIF `try` block:
the tag may be absent (`if tag in tags` is false), present but with a
conversion that raises (aborting the rest of the block), or convert
cleanly. -/
inductive FieldTry (α : Type) where
  | absent : FieldTry α
  | failed : FieldTry α
  | ok : α → FieldTry α
deriving DecidableEq, Repr

def FieldTry.mapVal (f : α → Val) : FieldTry α → FieldTry Val
  | .absent => .absent
  | .failed => .failed
  | .ok a => .ok (f a)

/-- The EXIF tags of one image as exposed by `exifread.process_file`.
Fields whose conversion can raise (`int(...)` on width/height/iso, rational
division for focal length/aperture) are `FieldTry`/`Rational`; string
fields cannot raise; `date_taken` is `some none` when the tag is present
but `strptime` fails (the inner `try` silently skips it). -/
structure ExifTags where
  width : FieldTry Int
  height : FieldTry Int
  make : Option String
  model : Option String
  lens : Option String
  focal : Option Rational
  fnumber : Option Rational
  exposure : Option String
  iso : FieldTry Int
  date_taken : Option (Option Int)
  gps : GpsTags
deriving DecidableEq, Repr

/-- One guarded assignment in the EXIF block: absent skips, a raising
conversion aborts the rest of the block (the enclosing `except` catches),
success prepends the field before the rest. -/
def tryField (name : String) (f : FieldTry Val) (rest : List (String × Val)) :
    List (String × Val) :=
  match f with
  | .absent => rest
  | .failed => []
  | .ok v => (name, v) :: rest

/-- One non-raising optional assignment (`if tag in tags: ... str(...)`). -/
def optField (name : String) (o : Option Val) (rest : List (String × Val)) :
    List (String × Val) :=
  match o with
  | none => rest
  | some v => (name, v) :: rest

/-- A present rational tag converts to `num/den`, raising when `den = 0`. -/
def ratTry (o : Option Rational) : FieldTry Val :=
  match o with
  | none => .absent
  | some r =>
    match ratVal r with
    | none => .failed
    | some q => .ok (.vQ q)

/-- The EXIF `try` block of `_process_image` (lines 199-241), fields in
source order; a raising conversion drops all later fields. -/
def exif_fields (t : ExifTags) : List (String × Val) :=
  tryField "width" (t.width.mapVal Val.vInt) <|
  tryField "height" (t.height.mapVal Val.vInt) <|
  optField "camera_make" (t.make.map Val.vStr) <|
  optField "camera_model" (t.model.map Val.vStr) <|
  optField "lens_model" (t.lens.map Val.vStr) <|
  tryField "focal_length" (ratTry t.focal) <|
  tryField "aperture" (ratTry t.fnumber) <|
  optField "shutter_speed" (t.exposure.map Val.vStr) <|
  tryField "iso" (t.iso.mapVal Val.vInt) <|
  optField "date_taken" ((t.date_taken.bind id).map Val.vTime) <|
  optField "gps_coordinates" ((extract_gps_from_tags t.gps).map Val.vGps) []

/-- What `PIL.Image.open` yields when it succeeds (lines 247-255). -/
structure PilInfo where
  width : Int
  height : Int
  format : String
deriving DecidableEq, Repr

/-- `MetadataAggregator._process_image` (lines 186-257).  `exif = none`
models `open`/`exifread.process_file` itself raising (block skipped);
`pil = none` models `Image.open` raising (block skipped). -/
def process_image (file_path : String) (b : BaseInfo)
    (exif : Option ExifTags) (pil : Option PilInfo) : List (String × Val) :=
  let m := base_fields file_path "image" b
  let m := m ++ (match exif with | none => [] | some t => exif_fields t)
  match pil with
  | none => m
  | some pinfo =>
    let m := if (m.lookup "width").isNone then m ++ [("width", Val.vInt pinfo.width)] else m
    let m := if (m.lookup "height").isNone then m ++ [("height", Val.vInt pinfo.height)] else m
    m ++ [("format", Val.vStr pinfo.format)]

/-- What `moviepy.VideoFileClip` yields on success (lines 318-326). -/
structure VideoInfo where
  duration : ℚ
  width : Int
  height : Int
  fps : ℚ
  audio : Option (Int × Int)
deriving DecidableEq, Repr

/-- `MetadataAggregator._process_video` (lines 302-333): base fields only
when the moviepy backend is unavailable or the clip fails to open. -/
def process_video (file_path : String) (b : BaseInfo)
    (mpAvailable : Bool) (clip : Option VideoInfo) : List (String × Val) :=
  let m := base_fields file_path "video" b
  if mpAvailable = false then m
  else
    match clip with
    | none => m
    | some c =>
      m ++ [("duration", Val.vQ c.duration),
            ("width", Val.vInt c.width),
            ("height", Val.vInt c.height),
            ("frame_rate", Val.vQ c.fps)]
        ++ (match c.audio with
            | none => []
            | some (ch, sr) =>
              [("audio_channels", Val.vInt ch),
               ("audio_sample_rate", Val.vInt sr)])

/-- The tag frame of an audio file as exposed by eyed3 (lines 349-361):
title/artist/album/album-artist are stored even when `None`; `genre` is
`str(tag.genre)` or `None`; `year`/`track` only when their source is
truthy. -/
structure AudioTag where
  title : Option String
  artist : Option String
  album : Option String
  album_artist : Option String
  genre : Option String
  year : Option Int
  track : Option Int
deriving DecidableEq, Repr

/-- The info frame of an audio file (lines 363-367); `bit_rate` can be
`None`. -/
structure AudioInfo where
  time_secs : ℚ
  bit_rate : Option Int
  sample_freq : Int
deriving DecidableEq, Repr

/-- A Python value that may be `None`, stored as-is. -/
def vOptStr : Option String → Val
  | none => Val.vNone
  | some s => Val.vStr s

/-- `MetadataAggregator._process_audio` (lines 335-372): `tag = none` /
`info = none` model a falsy `audiofile`/`audiofile.tag`/`audiofile.info`
or a raising `eyed3.load`. -/
def process_audio (file_path : String) (b : BaseInfo)
    (tag : Option AudioTag) (info : Option AudioInfo) : List (String × Val) :=
  let m := base_fields file_path "audio" b
  let m := m ++ (match tag with
    | none => []
    | some t =>
      [("title", vOptStr t.title),
       ("artist", vOptStr t.artist),
       ("album", vOptStr t.album),
       ("album_artist", vOptStr t.album_artist),
       ("genre", vOptStr t.genre)]
      ++ (match t.year with | none => [] | some y => [("year", Val.vInt y)])
      ++ (match t.track with | none => [] | some n => [("track_number", Val.vInt n)]))
  m ++ (match info with
    | none => []
    | some i =>
      [("duration", Val.vQ i.time_secs),
       ("bitrate", match i.bit_rate with | none => Val.vNone | some br => Val.vInt br),
       ("sample_rate", Val.vInt i.sample_freq)])

/-- PDF document properties (lines 393-407): each `meta.get(...)` may be
`None`; `creation = some none` models a present but unparseable
`CreationDate`. -/
structure PdfMeta where
  title : Option String
  author : Option String
  subject : Option String
  creator : Option String
  producer : Option String
  creation : Option (Option Int)
deriving DecidableEq, Repr

/-- What `pdfplumber.open` yields on success (lines 390-394). -/
structure PdfInfo where
  page_count : Int
  meta : Option PdfMeta
deriving DecidableEq, Repr

/-- DOCX core properties plus derived word count (lines 414-428); string
properties and dates may be `None`; `keywords` is the raw comma-joined
string when truthy. -/
structure DocxProps where
  title : Option String
  author : Option String
  subject : Option String
  keywords : Option String
  created : Option Int
  modified : Option Int
  word_count : Int
deriving DecidableEq, Repr

/-- `MetadataAggregator._process_document` (lines 374-434). -/
def process_document (file_path : String) (b : BaseInfo)
    (pdfAvailable docxAvailable : Bool)
    (pdf : Option PdfInfo) (docx : Option DocxProps) : List (String × Val) :=
  let m := base_fields file_path "document" b
  let ext := toLowerStr (pathSuffix file_path)
  if ext = ".pdf" ∧ pdfAvailable then
    match pdf with
    | none => m
    | some p =>
      let m := m ++ [("page_count", Val.vInt p.page_count)]
      match p.meta with
      | none => m
      | some meta =>
        m ++ [("title", vOptStr meta.title),
              ("author", vOptStr meta.author),
              ("subject", vOptStr meta.subject),
              ("creator", vOptStr meta.creator),
              ("producer", vOptStr meta.producer)]
          ++ (match meta.creation with
              | some (some d) => [("creation_date", Val.vTime d)]
              | _ => [])
  else if ext = ".docx" ∧ docxAvailable then
    match docx with
    | none => m
    | some d =>
      m ++ [("title", vOptStr d.title),
            ("author", vOptStr d.author),
            ("subject", vOptStr d.subject),
            ("keywords", match d.keywords with
                         | none => Val.vNone
                         | some k => Val.vStrList (k.splitOn ",")),
            ("creation_date", match d.created with
                              | none => Val.vNone
                              | some t => Val.vTime t),
            ("modification_date", match d.modified with
                                  | none => Val.vNone
                                  | some t => Val.vTime t),
            ("word_count", Val.vInt d.word_count)]
  else m

/-- `MetadataAggregator._process_generic` (lines 436-446). -/
def process_generic (file_path : String) (b : BaseInfo) : List (String × Val) :=
  base_fields file_path "unknown" b

/-- Everything the filesystem and the decoding libraries supply for one
path.  `base = .error msg` models the unconditional stat/MIME calls
raising (an unreadable file), which fails the whole record. -/
structure FsFile where
  base : Except String BaseInfo
  exif : Option ExifTags
  pil : Option PilInfo
  video : Option VideoInfo
  audioTag : Option AudioTag
  audioInfo : Option AudioInfo
  pdf : Option PdfInfo
  docx : Option DocxProps

/-- The world `MetadataAggregator` runs in: per-path library data plus
which optional backends are importable. -/
structure Env where
  file : String → FsFile
  mpAvailable : Bool
  pdfAvailable : Bool
  docxAvailable : Bool

/-- The `try` body of `process_file` (lines 162-174): detect the type and
run the matching extractor; `.error` is an exception escaping the
extractor. -/
def extract_record (env : Env) (file_path : String) :
    Except String (List (String × Val)) :=
  match (env.file file_path).base with
  | .error e => .error e
  | .ok b =>
    match detect_file_type file_path with
    | "image" => .ok (process_image file_path b (env.file file_path).exif (env.file file_path).pil)
    | "video" => .ok (process_video file_path b env.mpAvailable (env.file file_path).video)
    | "audio" => .ok (process_audio file_path b (env.file file_path).audioTag (env.file file_path).audioInfo)
    | "document" => .ok (process_document file_path b env.pdfAvailable env.docxAvailable (env.file file_path).pdf (env.file file_path).docx)
    | _ => .ok (process_generic file_path b)

/-- One entry of `self.errors` (`{'file': ..., 'error': ..., 'type': ...}`);
the dictionary's `type` key is named `etype` here (`type` is reserved). -/
structure ErrorEntry where
  file : String
  error : String
  etype : String
deriving DecidableEq, Repr

/-- The mutable collector state of the aggregator (`self.results`,
`self.errors`). -/
structure AggState where
  results : List (List (String × Val))
  errors : List ErrorEntry
deriving DecidableEq, Repr

/-- `MetadataAggregator.process_file` (lines 152-184): any exception from
extraction is caught, appended to `self.errors` with type
`processing_error`, and `None` is returned. -/
def process_file (env : Env) (st : AggState) (file_path : String) :
    AggState × Option (List (String × Val)) :=
  match extract_record env file_path with
  | .ok r => (st, some r)
  | .error e =>
    ({ st with errors := st.errors ++ [⟨file_path, e, "processing_error"⟩] }, none)

/-- A worker task: `future.result()` re-raises anything the submitted call
raised; `process_file` is total, so the task always resolves with its
return value. -/
def run_task (env : Env) (st : AggState) (file_path : String) :
    Except String (AggState × Option (List (String × Val))) :=
  Except.ok (process_file env st file_path)

/-- `BatchProcessResult` from `data_models.py` (wall-clock
`processing_time` is not modelled). -/
structure BatchProcessResult where
  total_files : Nat
  successful : Nat
  failed : Nat
  errors : List ErrorEntry
deriving DecidableEq, Repr

/-- The body of the `as_completed` loop of `process_batch`
(lines 487-504): a truthy result is collected and counts as successful,
a falsy one (in particular `None`) as failed; an exception out of
`future.result()` is recorded as an `execution_error`. -/
def batch_step (env : Env) (acc : AggState × Nat × Nat) (file_path : String) :
    AggState × Nat × Nat :=
  let (st, successful, failed) := acc
  match run_task env st file_path with
  | .ok (st', result) =>
    match result with
    | some r =>
      if r.isEmpty then (st', successful, failed + 1)
      else ({ st' with results := st'.results ++ [r] }, successful + 1, failed)
    | none => (st', successful, failed + 1)
  | .error e =>
    ({ st with errors := st.errors ++ [⟨file_path, e, "execution_error"⟩] },
     successful, failed + 1)

/-- `MetadataAggregator.process_batch` (lines 448-526): clear the
collectors, run every submitted path to completion, and assemble a
`BatchProcessResult`.  `completion_order` is the order in which futures
complete — any permutation of `file_list`; `max_workers` bounds the pool
and does not enter the data path. -/
def process_batch (env : Env) (st : AggState) (file_list : List String)
    (max_workers : Nat) (completion_order : List String) :
    AggState × BatchProcessResult :=
  let st := { st with results := [], errors := [] }
  let folded := completion_order.foldl (batch_step env) (st, 0, 0)
  (folded.1, ⟨file_list.length, folded.2.1, folded.2.2, folded.1.errors⟩)

/-- `MetadataAggregator.get_results` (lines 528-530). -/
def get_results (st : AggState) : List (List (String × Val)) :=
  st.results

/-- The filesystem as seen by `scan_directory`: existence and
directory-ness of paths, plus the `Path.rglob`/`Path.glob` results for a
pattern. -/
structure ScanEnv where
  pathExists : String → Bool
  is_dir : String → Bool
  rglob : String → String → List String
  glob : String → String → List String

/-- The extension list built by `scan_directory` (lines 104-113). -/
def scan_extensions (file_types : Option (List String)) : List String :=
  match file_types with
  | none => (SUPPORTED_EXTENSIONS.map Prod.snd).flatten
  | some fts =>
    fts.foldl (fun acc ft =>
      match SUPPORTED_EXTENSIONS.lookup ft with
      | some exts => acc ++ exts
      | none => acc) []

/-- `MetadataAggregator.scan_directory` (lines 79-132): validate the root,
glob each extension in both cases, then `sorted(list(set(...)))`. -/
def scan_directory (env : ScanEnv) (path : String) (recursive : Bool)
    (file_types : Option (List String)) : Except String (List String) :=
  if env.pathExists path = false then
    .error ("Path does not exist: " ++ path)
  else if env.is_dir path = false then
    .error ("Path is not a directory: " ++ path)
  else
    let extensions := scan_extensions file_types
    let files := extensions.foldl (fun acc ext =>
      if recursive then
        acc ++ env.rglob path ("*" ++ ext) ++ env.rglob path ("*" ++ toUpperStr ext)
      else
        acc ++ env.glob path ("*" ++ ext) ++ env.glob path ("*" ++ toUpperStr ext)) []
    .ok (files.dedup.mergeSort (fun a b => a ≤ b))

/-- The exact value `num/den` of a rational tag, for stating the
conversion formula. -/
def ratq (r : Rational) : ℚ :=
  (r.num : ℚ) / (r.den : ℚ)

/-- Some component of a degree/minute/second triple has a zero
denominator, so its float conversion raises `ZeroDivisionError`. -/
def tripleZeroDen (v : Rational × Rational × Rational) : Prop :=
  v.1.den = 0 ∨ v.2.1.den = 0 ∨ v.2.2.den = 0

/-- Some rational component among the GPS tags (latitude triple, longitude
triple, or altitude when present) has a zero denominator. -/
def gpsZeroDen (t : GpsTags) : Prop :=
  (∃ v, t.lat = some v ∧ tripleZeroDen v) ∨
  (∃ v, t.lon = some v ∧ tripleZeroDen v) ∨
  (∃ r, t.alt = some r ∧ r.den = 0)

theorem ratVal_of_den_ne (r : Rational) (h : r.den ≠ 0) :
    ratVal r = some (ratq r) := by
  simp [ratVal, ratq, h]

theorem ratVal_of_den_eq (r : Rational) (h : r.den = 0) :
    ratVal r = none := by
  simp [ratVal, h]

theorem convert_to_degrees_of_ne (a b c : Rational)
    (ha : a.den ≠ 0) (hb : b.den ≠ 0) (hc : c.den ≠ 0) :
    convert_to_degrees (a, b, c) = some (ratq a + ratq b / 60 + ratq c / 3600) := by
  simp [convert_to_degrees, ratVal_of_den_ne, ha, hb, hc]

theorem convert_to_degrees_zero (v : Rational × Rational × Rational)
    (h : tripleZeroDen v) : convert_to_degrees v = none := by
  obtain ⟨a, b, c⟩ := v
  rcases h with h | h | h
  · simp [convert_to_degrees, ratVal_of_den_eq _ h]
  · cases ha : ratVal a <;>
      simp [convert_to_degrees, ha, ratVal_of_den_eq _ h]
  · cases ha : ratVal a <;> cases hb : ratVal b <;>
      simp [convert_to_degrees, ha, hb, ratVal_of_den_eq _ h]

theorem extract_gps_eq_formula
    (latd latm lats lond lonm lons : Rational) (lat_ref lon_ref : String)
    (h1 : latd.den ≠ 0) (h2 : latm.den ≠ 0) (h3 : lats.den ≠ 0)
    (h4 : lond.den ≠ 0) (h5 : lonm.den ≠ 0) (h6 : lons.den ≠ 0) :
    extract_gps_from_tags
        ⟨some (latd, latm, lats), some lat_ref,
         some (lond, lonm, lons), some lon_ref, none⟩
      = some ⟨(if lat_ref = "S"
               then -(ratq latd + ratq latm / 60 + ratq lats / 3600)
               else ratq latd + ratq latm / 60 + ratq lats / 3600),
              (if lon_ref = "W"
               then -(ratq lond + ratq lonm / 60 + ratq lons / 3600)
               else ratq lond + ratq lonm / 60 + ratq lons / 3600),
              lat_ref, lon_ref, none⟩ := by
  simp [extract_gps_from_tags,
        convert_to_degrees_of_ne latd latm lats h1 h2 h3,
        convert_to_degrees_of_ne lond lonm lons h4 h5 h6]

/-- Claim C3: GPS normalization converts each degree/minute/second rational
triple to a decimal degree as `degrees + minutes/60 + seconds/3600`,
computed independently for latitude and longitude, and negates the result
exactly when `lat_ref` is `"S"` / `lon_ref` is `"W"`.  In particular
`lat_dms=(40,26,46)`, `lat_ref="N"`, `lon_dms=(79,58,56)`, `lon_ref="W"`
gives latitude `145606/3600 ≈ 40.4461` and longitude
`-287936/3600 ≈ -79.9822`. -/
theorem gps_dms_decimal_conversion :
    (∀ (latd latm lats lond lonm lons : Rational) (lat_ref lon_ref : String),
      latd.den ≠ 0 → latm.den ≠ 0 → lats.den ≠ 0 →
      lond.den ≠ 0 → lonm.den ≠ 0 → lons.den ≠ 0 →
      extract_gps_from_tags
          ⟨some (latd, latm, lats), some lat_ref,
           some (lond, lonm, lons), some lon_ref, none⟩
        = some ⟨(if lat_ref = "S"
                 then -(ratq latd + ratq latm / 60 + ratq lats / 3600)
                 else ratq latd + ratq latm / 60 + ratq lats / 3600),
                (if lon_ref = "W"
                 then -(ratq lond + ratq lonm / 60 + ratq lons / 3600)
                 else ratq lond + ratq lonm / 60 + ratq lons / 3600),
                lat_ref, lon_ref, none⟩) ∧
    (extract_gps_from_tags
        ⟨some (⟨40, 1⟩, ⟨26, 1⟩, ⟨46, 1⟩), some "N",
         some (⟨79, 1⟩, ⟨58, 1⟩, ⟨56, 1⟩), some "W", none⟩
      = some ⟨145606 / 3600, -(287936 / 3600), "N", "W", none⟩ ∧
     (404461 / 10000 : ℚ) ≤ 145606 / 3600 ∧
     (145606 / 3600 : ℚ) ≤ 404462 / 10000 ∧
     (-799823 / 10000 : ℚ) ≤ -(287936 / 3600) ∧
     (-(287936 / 3600) : ℚ) ≤ -799822 / 10000) := by
  constructor
  · intro latd latm lats lond lonm lons lat_ref lon_ref h1 h2 h3 h4 h5 h6
    exact extract_gps_eq_formula latd latm lats lond lonm lons lat_ref lon_ref
      h1 h2 h3 h4 h5 h6
  · refine ⟨?_, by norm_num, by norm_num, by norm_num, by norm_num⟩
    rw [extract_gps_eq_formula ⟨40, 1⟩ ⟨26, 1⟩ ⟨46, 1⟩ ⟨79, 1⟩ ⟨58, 1⟩ ⟨56, 1⟩
      "N" "W" (by decide) (by decide) (by decide) (by decide) (by decide) (by decide)]
    simp only [ratq]
    norm_num
    decide

/-- Witness for the universally quantified part of C3, at the spec's
round-trip example. -/
theorem gps_dms_decimal_conversion_witness :
    extract_gps_from_tags
        ⟨some (⟨40, 1⟩, ⟨26, 1⟩, ⟨46, 1⟩), some "N",
         some (⟨79, 1⟩, ⟨58, 1⟩, ⟨56, 1⟩), some "W", none⟩
      = some ⟨145606 / 3600, -(287936 / 3600), "N", "W", none⟩ := by
  have h := gps_dms_decimal_conversion.1 ⟨40, 1⟩ ⟨26, 1⟩ ⟨46, 1⟩
    ⟨79, 1⟩ ⟨58, 1⟩ ⟨56, 1⟩ "N" "W"
    (by decide) (by decide) (by decide) (by decide) (by decide) (by decide)
  rw [h]
  simp only [ratq]
  norm_num
  decide

/-- Claim C4: GPS normalization returns `none` (never a zeroed or
partially-populated structure) whenever any of the four required inputs is
missing, or whenever any rational component (latitude triple, longitude
triple, or altitude when present) has a zero denominator. -/
theorem gps_absent_on_malformed (t : GpsTags) :
    ((t.lat = none ∨ t.latRef = none ∨ t.lon = none ∨ t.lonRef = none) →
      extract_gps_from_tags t = none) ∧
    (gpsZeroDen t → extract_gps_from_tags t = none) := by
  obtain ⟨lat, latRef, lon, lonRef, alt⟩ := t
  constructor
  · intro h
    cases lat <;> cases latRef <;> cases lon <;> cases lonRef <;>
      simp_all [extract_gps_from_tags]
  · rintro (⟨v, hv, hzero⟩ | ⟨v, hv, hzero⟩ | ⟨r, hr, hzero⟩) <;>
      cases lat <;> cases latRef <;> cases lon <;> cases lonRef <;>
      simp_all [extract_gps_from_tags]
    · simp [convert_to_degrees_zero _ hzero]
    · cases hc : convert_to_degrees ‹Rational × Rational × Rational› <;>
        simp [hc, convert_to_degrees_zero _ hzero]
    · subst hr
      rename_i vlat _ vlon _
      cases hc1 : convert_to_degrees vlat <;>
        cases hc2 : convert_to_degrees vlon <;>
        simp [hc1, hc2, ratVal_of_den_eq _ hzero]

/-- Witness for C4: a missing latitude reference and a zero denominator
both suppress the GPS dictionary. -/
theorem gps_absent_on_malformed_witness :
    extract_gps_from_tags
        ⟨some (⟨1, 1⟩, ⟨1, 1⟩, ⟨1, 1⟩), none,
         some (⟨1, 1⟩, ⟨1, 1⟩, ⟨1, 1⟩), some "E", none⟩ = none ∧
    extract_gps_from_tags
        ⟨some (⟨1, 0⟩, ⟨1, 1⟩, ⟨1, 1⟩), some "N",
         some (⟨1, 1⟩, ⟨1, 1⟩, ⟨1, 1⟩), some "E", none⟩ = none :=
  ⟨(gps_absent_on_malformed _).1 (Or.inr (Or.inl rfl)),
   (gps_absent_on_malformed _).2 (Or.inl ⟨_, rfl, Or.inl rfl⟩)⟩

/-- GPS tags that are perfectly well-formed (all four tags present, no
zero denominator) but denote a point outside the valid coordinate
ranges. -/
def gpsOutOfRangeTags : GpsTags :=
  ⟨some (⟨200, 1⟩, ⟨0, 1⟩, ⟨0, 1⟩), some "N",
   some (⟨200, 1⟩, ⟨0, 1⟩, ⟨0, 1⟩), some "E", none⟩

/-- EXIF tags carrying only the out-of-range GPS data. -/
def exifOutOfRange : ExifTags :=
  ⟨.absent, .absent, none, none, none, none, none, none, .absent, none,
   gpsOutOfRangeTags⟩

/-- An environment whose every file is a readable image carrying
`exifOutOfRange`. -/
def envOutOfRange : Env :=
  ⟨fun _ => ⟨.ok ⟨1, "image/jpeg", 0, 0⟩, some exifOutOfRange, none,
             none, none, none, none, none⟩, true, true, true⟩

theorem extract_gps_outOfRange :
    extract_gps_from_tags gpsOutOfRangeTags = some ⟨200, 200, "N", "E", none⟩ := by
  rw [gpsOutOfRangeTags,
      extract_gps_eq_formula ⟨200, 1⟩ ⟨0, 1⟩ ⟨0, 1⟩ ⟨200, 1⟩ ⟨0, 1⟩ ⟨0, 1⟩ "N" "E"
        (by decide) (by decide) (by decide) (by decide) (by decide) (by decide)]
  simp only [ratq]
  norm_num
  decide

/-- Counterexample to C1 as stated: a successful image record whose GPS
sub-object has latitude 200 and longitude 200, both outside the claimed
ranges — the extractor performs no range validation on well-formed tags. -/
theorem gps_out_of_range_record :
    (extract_record envOutOfRange "x.jpg").map (fun r => r.lookup "gps_coordinates")
      = .ok (some (Val.vGps ⟨200, 200, "N", "E", none⟩)) ∧
    ¬((-90 : ℚ) ≤ 200 ∧ (200 : ℚ) ≤ 90) ∧
    ¬((-180 : ℚ) ≤ 200 ∧ (200 : ℚ) ≤ 180) := by
  refine ⟨?_, by norm_num, by norm_num⟩
  have hdet : detect_file_type "x.jpg" = "image" := by decide
  simp [extract_record, envOutOfRange, hdet, process_image, exifOutOfRange,
        exif_fields, tryField, optField, ratTry, FieldTry.mapVal,
        extract_gps_outOfRange, base_fields, List.lookup, Except.map]

/-- Claim C1 (amended): whenever the source GPS tags are malformed (a required
tag missing, or any rational component with a zero denominator) the GPS
sub-object is suppressed entirely, and an emitted GPS sub-object can only
come from fully present, well-formed tags — but its coordinates are not
range-validated and may lie outside `[-90,90]`/`[-180,180]`. -/
theorem gps_suppression_wellformed (t : GpsTags) :
    ((t.lat = none ∨ t.latRef = none ∨ t.lon = none ∨ t.lonRef = none ∨
        gpsZeroDen t) →
      extract_gps_from_tags t = none) ∧
    (∀ g, extract_gps_from_tags t = some g →
      t.lat ≠ none ∧ t.latRef ≠ none ∧ t.lon ≠ none ∧ t.lonRef ≠ none ∧
        ¬ gpsZeroDen t) := by
  obtain ⟨lat, latRef, lon, lonRef, alt⟩ := t
  constructor
  · intro h
    rcases h with h | h | h | h | h
    · cases lat <;> cases latRef <;> cases lon <;> cases lonRef <;>
        simp_all [extract_gps_from_tags]
    · cases lat <;> cases latRef <;> cases lon <;> cases lonRef <;>
        simp_all [extract_gps_from_tags]
    · cases lat <;> cases latRef <;> cases lon <;> cases lonRef <;>
        simp_all [extract_gps_from_tags]
    · cases lat <;> cases latRef <;> cases lon <;> cases lonRef <;>
        simp_all [extract_gps_from_tags]
    · rcases h with ⟨v, hv, hzero⟩ | ⟨v, hv, hzero⟩ | ⟨r, hr, hzero⟩ <;>
        cases lat <;> cases latRef <;> cases lon <;> cases lonRef <;>
        simp_all [extract_gps_from_tags]
      · simp [convert_to_degrees_zero _ hzero]
      · cases hc : convert_to_degrees ‹Rational × Rational × Rational› <;>
          simp [hc, convert_to_degrees_zero _ hzero]
      · subst hr
        rename_i vlat _ vlon _
        cases hc1 : convert_to_degrees vlat <;>
          cases hc2 : convert_to_degrees vlon <;>
          simp [hc1, hc2, ratVal_of_den_eq _ hzero]
  · intro g hg
    cases lat with
    | none => simp [extract_gps_from_tags] at hg
    | some vlat =>
    cases latRef with
    | none => simp [extract_gps_from_tags] at hg
    | some rlat =>
    cases lon with
    | none => simp [extract_gps_from_tags] at hg
    | some vlon =>
    cases lonRef with
    | none => simp [extract_gps_from_tags] at hg
    | some rlon =>
    refine ⟨by simp, by simp, by simp, by simp, ?_⟩
    rintro (⟨v, hv, hzero⟩ | ⟨v, hv, hzero⟩ | ⟨r, hr, hzero⟩)
    · obtain rfl : vlat = v := by simpa using hv
      simp [extract_gps_from_tags, convert_to_degrees_zero _ hzero] at hg
    · obtain rfl : vlon = v := by simpa using hv
      cases hc1 : convert_to_degrees vlat <;>
        simp [extract_gps_from_tags, hc1, convert_to_degrees_zero _ hzero] at hg
    · obtain rfl : alt = some r := by simpa using hr
      cases hc1 : convert_to_degrees vlat <;>
        cases hc2 : convert_to_degrees vlon <;>
        simp [extract_gps_from_tags, hc1, hc2, ratVal_of_den_eq _ hzero] at hg

/-- Witness for the amended C1: suppression at a malformed input and
well-formedness at an emitting input. -/
theorem gps_suppression_wellformed_witness :
    extract_gps_from_tags
        ⟨none, some "N", some (⟨1, 1⟩, ⟨1, 1⟩, ⟨1, 1⟩), some "E", none⟩ = none ∧
    ¬ gpsZeroDen gpsOutOfRangeTags :=
  ⟨(gps_suppression_wellformed _).1 (Or.inl rfl),
   ((gps_suppression_wellformed _).2 ⟨200, 200, "N", "E", none⟩
      extract_gps_outOfRange).2.2.2.2⟩

theorem table_lookup_sound :
    SUPPORTED_EXTENSIONS.all (fun ce => ce.2.all (fun e =>
      decide ((match SUPPORTED_EXTENSIONS.find? (fun p => p.2.contains e) with
               | some p => p.1
               | none => "unknown") = ce.1))) = true := by
  decide

theorem lookup_ext_sound (ext c : String) (exts : List String)
    (hc : (c, exts) ∈ SUPPORTED_EXTENSIONS) (he : ext ∈ exts) :
    (match SUPPORTED_EXTENSIONS.find? (fun p => p.2.contains ext) with
     | some p => p.1
     | none => "unknown") = c := by
  have h := table_lookup_sound
  simp only [List.all_eq_true] at h
  exact of_decide_eq_true (h (c, exts) hc ext he)

theorem lookup_ext_unknown (ext : String)
    (h : ext ∉ (SUPPORTED_EXTENSIONS.map Prod.snd).flatten) :
    (match SUPPORTED_EXTENSIONS.find? (fun p => p.2.contains ext) with
     | some p => p.1
     | none => "unknown") = "unknown" := by
  have hf : SUPPORTED_EXTENSIONS.find? (fun p => p.2.contains ext) = none := by
    rw [List.find?_eq_none]
    intro p hp hcon
    exact h (List.mem_flatten.2
      ⟨p.2, List.mem_map_of_mem Prod.snd hp, by simpa using hcon⟩)
  rw [hf]

/-- Claim C5: type detection is a pure, total function of the path's extension,
compared case-insensitively against the fixed
category-to-extension-set table: any path whose lower-cased extension is
in a category's set maps to that category, and any path whose extension
is in no set maps to `"unknown"`.  (`detect_file_type` is a total Lean
function of the path string alone: it performs no I/O and cannot
raise.) -/
theorem detect_file_type_spec :
    (∀ file_path c exts, (c, exts) ∈ SUPPORTED_EXTENSIONS →
      toLowerStr (pathSuffix file_path) ∈ exts →
      detect_file_type file_path = c) ∧
    (∀ file_path, toLowerStr (pathSuffix file_path) ∉
        (SUPPORTED_EXTENSIONS.map Prod.snd).flatten →
      detect_file_type file_path = "unknown") := by
  constructor
  · intro fp c exts hc he
    simpa [detect_file_type] using lookup_ext_sound _ c exts hc he
  · intro fp h
    simpa [detect_file_type] using lookup_ext_unknown _ h

/-- Witness for C5: an upper-case image extension detects as image, a
`.txt` file as unknown. -/
theorem detect_file_type_spec_witness :
    detect_file_type "DCIM/photo.JPG" = "image" ∧
    detect_file_type "notes.txt" = "unknown" :=
  ⟨detect_file_type_spec.1 "DCIM/photo.JPG" "image"
      [".jpg", ".jpeg", ".png", ".gif", ".bmp", ".tiff", ".tif"]
      (by decide) (by decide),
   detect_file_type_spec.2 "notes.txt" (by decide)⟩

/-- Claim C7: a successful scan returns a de-duplicated, lexicographically
sorted path list, and scanning is idempotent: with the environment (the
unchanged directory) and the arguments fixed, a second scan returns the
identical list. -/
theorem scan_directory_sorted_nodup (env : ScanEnv) (path : String)
    (recursive : Bool) (file_types : Option (List String)) (l : List String)
    (h : scan_directory env path recursive file_types = .ok l) :
    l.Sorted (fun a b : String => a ≤ b) ∧ l.Nodup ∧
    scan_directory env path recursive file_types
      = scan_directory env path recursive file_types := by
  rw [scan_directory] at h
  split at h
  · exact absurd h (by simp)
  split at h
  · exact absurd h (by simp)
  injection h with h
  subst h
  refine ⟨List.sorted_mergeSort' _, ?_, rfl⟩
  exact ((List.mergeSort_perm _ _).nodup_iff).2 (List.nodup_dedup _)

/-- A concrete directory with one file hit twice by the glob, for the
scan witnesses. -/
def scanEnvW : ScanEnv :=
  ⟨fun _ => true, fun _ => true,
   fun _ pat => if pat = "*.jpg" then ["dir/a.jpg", "dir/a.jpg"] else [],
   fun _ _ => []⟩

/-- Witness for C7 at a concrete directory. -/
theorem scan_directory_sorted_nodup_witness :
    scan_directory scanEnvW "root" true none = .ok ["dir/a.jpg"] ∧
    (["dir/a.jpg"] : List String).Sorted (fun a b => a ≤ b) ∧
    (["dir/a.jpg"] : List String).Nodup := by
  have hms : (["dir/a.jpg"] : List String).mergeSort (fun a b => a ≤ b)
      = ["dir/a.jpg"] :=
    List.mergeSort_eq_self (List.sorted_singleton _)
  have h : scan_directory scanEnvW "root" true none = .ok ["dir/a.jpg"] := by
    rw [← hms]
    rfl
  have main := scan_directory_sorted_nodup scanEnvW "root" true none _ h
  exact ⟨h, main.1, main.2.1⟩

/-- Claim C8: `scan_directory` fails with the validation error (the source's
`ValueError`, the spec's `InvalidPathError`), raised to the immediate
caller, exactly when the root path does not exist or is not a directory;
the failure is decided before any traversal — it depends only on the
existence/directory tests, not on the glob results. -/
theorem scan_directory_invalid_path (env : ScanEnv) (path : String)
    (recursive : Bool) (file_types : Option (List String)) :
    ((∃ e, scan_directory env path recursive file_types = Except.error e) ↔
      (env.pathExists path = false ∨ env.is_dir path = false)) ∧
    (∀ env' : ScanEnv, env'.pathExists = env.pathExists →
      env'.is_dir = env.is_dir →
      (env.pathExists path = false ∨ env.is_dir path = false) →
      scan_directory env' path recursive file_types
        = scan_directory env path recursive file_types) := by
  constructor
  · cases hpe : env.pathExists path <;> cases hid : env.is_dir path <;>
      simp [scan_directory, hpe, hid]
  · intro env' h1 h2 hbad
    rcases hbad with hbad | hbad
    · simp [scan_directory, h1, h2, hbad]
    · cases hpe : env.pathExists path <;>
        simp [scan_directory, h1, h2, hpe, hbad]

/-- An environment whose root path does not exist. -/
def scanEnvBad : ScanEnv :=
  ⟨fun _ => false, fun _ => true, fun _ _ => [], fun _ _ => []⟩

/-- Witness for C8 at a missing root path. -/
theorem scan_directory_invalid_path_witness :
    (∃ e, scan_directory scanEnvBad "missing" true none = Except.error e) ∧
    scan_directory scanEnvBad "missing" true none
      = scan_directory scanEnvBad "missing" true none :=
  ⟨(scan_directory_invalid_path scanEnvBad "missing" true none).1.2 (Or.inl rfl),
   (scan_directory_invalid_path scanEnvBad "missing" true none).2 scanEnvBad
     rfl rfl (Or.inl rfl)⟩

/-- The seven base field names every record carries. -/
def base_keys : List String :=
  ["file_path", "file_name", "file_type", "file_size", "mime_type",
   "created_date", "modified_date"]

/-- The category-specific field names each extractor can populate. -/
def extraKeys (cat : String) : List String :=
  if cat = "image" then
    ["width", "height", "camera_make", "camera_model", "lens_model",
     "focal_length", "aperture", "shutter_speed", "iso", "date_taken",
     "gps_coordinates", "format"]
  else if cat = "video" then
    ["duration", "width", "height", "frame_rate", "audio_channels",
     "audio_sample_rate"]
  else if cat = "audio" then
    ["title", "artist", "album", "album_artist", "genre", "year",
     "track_number", "duration", "bitrate", "sample_rate"]
  else if cat = "document" then
    ["page_count", "title", "author", "subject", "creator", "producer",
     "creation_date", "keywords", "modification_date", "word_count"]
  else []

theorem lookup_append_left {α β : Type} [BEq α] (l₁ l₂ : List (α × β))
    (k : α) (v : β) (h : l₁.lookup k = some v) :
    (l₁ ++ l₂).lookup k = some v := by
  induction l₁ with
  | nil => simp [List.lookup] at h
  | cons hd tl ih =>
    obtain ⟨a, b⟩ := hd
    cases hbeq : k == a <;> simp_all [List.lookup]

theorem base_fields_lookup (fp cat : String) (b : BaseInfo) :
    ∀ k ∈ base_keys, ∃ v, (base_fields fp cat b).lookup k = some v ∧
      v ≠ Val.vNone := by
  intro k hk
  rcases (by simpa [base_keys] using hk :
      k = "file_path" ∨ k = "file_name" ∨ k = "file_type" ∨ k = "file_size" ∨
      k = "mime_type" ∨ k = "created_date" ∨ k = "modified_date") with
    rfl | rfl | rfl | rfl | rfl | rfl | rfl <;>
    exact ⟨_, rfl, by simp⟩

theorem base_fields_keys (fp cat : String) (b : BaseInfo) :
    ∀ kv ∈ base_fields fp cat b, kv.1 ∈ base_keys := by
  intro kv hkv
  simp only [base_fields, List.mem_cons, List.not_mem_nil, or_false] at hkv
  rcases hkv with rfl | rfl | rfl | rfl | rfl | rfl | rfl <;> simp [base_keys]

theorem baseType_lookup (fp cat : String) (b : BaseInfo) :
    (base_fields fp cat b).lookup "file_type" = some (Val.vStr cat) := rfl

theorem tryField_keys {S : List String} (n : String) (f : FieldTry Val)
    (rest : List (String × Val)) (hn : n ∈ S)
    (hrest : ∀ kv ∈ rest, kv.1 ∈ S) :
    ∀ kv ∈ tryField n f rest, kv.1 ∈ S := by
  intro kv hkv
  cases f with
  | absent => exact hrest kv hkv
  | failed => simp [tryField] at hkv
  | ok v =>
    rcases (by simpa [tryField] using hkv : kv = (n, v) ∨ kv ∈ rest) with h | h
    · subst h; exact hn
    · exact hrest kv h

theorem optField_keys {S : List String} (n : String) (o : Option Val)
    (rest : List (String × Val)) (hn : n ∈ S)
    (hrest : ∀ kv ∈ rest, kv.1 ∈ S) :
    ∀ kv ∈ optField n o rest, kv.1 ∈ S := by
  intro kv hkv
  cases o with
  | none => exact hrest kv hkv
  | some v =>
    rcases (by simpa [optField] using hkv : kv = (n, v) ∨ kv ∈ rest) with h | h
    · subst h; exact hn
    · exact hrest kv h

theorem exif_fields_keys (t : ExifTags) :
    ∀ kv ∈ exif_fields t, kv.1 ∈ extraKeys "image" := by
  rw [exif_fields]
  refine tryField_keys _ _ _ (by decide) ?_
  refine tryField_keys _ _ _ (by decide) ?_
  refine optField_keys _ _ _ (by decide) ?_
  refine optField_keys _ _ _ (by decide) ?_
  refine optField_keys _ _ _ (by decide) ?_
  refine tryField_keys _ _ _ (by decide) ?_
  refine tryField_keys _ _ _ (by decide) ?_
  refine optField_keys _ _ _ (by decide) ?_
  refine tryField_keys _ _ _ (by decide) ?_
  refine optField_keys _ _ _ (by decide) ?_
  refine optField_keys _ _ _ (by decide) ?_
  intro kv h
  simp at h

theorem keys_append {S : List String} (l₁ l₂ : List (String × Val))
    (h₁ : ∀ kv ∈ l₁, kv.1 ∈ S) (h₂ : ∀ kv ∈ l₂, kv.1 ∈ S) :
    ∀ kv ∈ l₁ ++ l₂, kv.1 ∈ S := by
  intro kv h
  rcases List.mem_append.1 h with h | h
  exacts [h₁ kv h, h₂ kv h]

theorem keys_of_fst {S : List String} (l : List (String × Val))
    (h : ∀ k ∈ l.map Prod.fst, k ∈ S) : ∀ kv ∈ l, kv.1 ∈ S := by
  intro kv hkv
  exact h kv.1 (List.mem_map_of_mem Prod.fst hkv)

theorem process_image_spec (fp : String) (b : BaseInfo)
    (ex : Option ExifTags) (pil : Option PilInfo) :
    ∃ rest, process_image fp b ex pil = base_fields fp "image" b ++ rest ∧
      ∀ kv ∈ rest, kv.1 ∈ extraKeys "image" := by
  cases ex with
  | none =>
    cases pil with
    | none => exact ⟨_, rfl, by simp⟩
    | some pinfo =>
      simp only [process_image]
      split
      · split
        · exact ⟨_, rfl, by
            intro kv h
            simp at h
            rcases h with rfl | rfl | rfl <;> simp [extraKeys]⟩
        · exact ⟨_, rfl, by
            intro kv h
            simp at h
            rcases h with rfl | rfl <;> simp [extraKeys]⟩
      · split
        · exact ⟨_, rfl, by
            intro kv h
            simp at h
            rcases h with rfl | rfl <;> simp [extraKeys]⟩
        · exact ⟨_, rfl, by
            intro kv h
            simp at h
            subst h
            simp [extraKeys]⟩
  | some t =>
    cases pil with
    | none => exact ⟨_, rfl, exif_fields_keys t⟩
    | some pinfo =>
      simp only [process_image]
      split
      · split
        · exact ⟨_, rfl, by
            intro kv h
            simp at h
            rcases h with h | rfl | rfl | rfl
            · exact exif_fields_keys t kv h
            all_goals simp [extraKeys]⟩
        · exact ⟨_, rfl, by
            intro kv h
            simp at h
            rcases h with h | rfl | rfl
            · exact exif_fields_keys t kv h
            all_goals simp [extraKeys]⟩
      · split
        · exact ⟨_, rfl, by
            intro kv h
            simp at h
            rcases h with h | rfl | rfl
            · exact exif_fields_keys t kv h
            all_goals simp [extraKeys]⟩
        · exact ⟨_, rfl, by
            intro kv h
            simp at h
            rcases h with h | rfl
            · exact exif_fields_keys t kv h
            all_goals simp [extraKeys]⟩

theorem process_video_spec (fp : String) (b : BaseInfo)
    (mpAvailable : Bool) (clip : Option VideoInfo) :
    ∃ rest, process_video fp b mpAvailable clip
        = base_fields fp "video" b ++ rest ∧
      ∀ kv ∈ rest, kv.1 ∈ extraKeys "video" := by
  cases mpAvailable with
  | false => exact ⟨_, rfl, by simp⟩
  | true =>
    cases clip with
    | none => exact ⟨_, rfl, by simp⟩
    | some c =>
      obtain ⟨dur, w, h, fps, audio⟩ := c
      rcases audio with _ | ⟨ch, sr⟩ <;>
        exact ⟨_, rfl, keys_of_fst _ (by simp [extraKeys])⟩

theorem process_audio_spec (fp : String) (b : BaseInfo)
    (tag : Option AudioTag) (info : Option AudioInfo) :
    ∃ rest, process_audio fp b tag info = base_fields fp "audio" b ++ rest ∧
      ∀ kv ∈ rest, kv.1 ∈ extraKeys "audio" := by
  cases tag with
  | none =>
    cases info with
    | none => exact ⟨_, rfl, by simp⟩
    | some i => exact ⟨_, rfl, keys_of_fst _ (by simp [extraKeys])⟩
  | some t =>
    obtain ⟨ti, ar, al, aa, ge, yr, tr⟩ := t
    cases yr <;> cases tr <;> cases info <;>
      exact ⟨_, rfl, keys_of_fst _ (by simp [extraKeys])⟩

theorem process_document_spec (fp : String) (b : BaseInfo)
    (pdfAvailable docxAvailable : Bool)
    (pdf : Option PdfInfo) (docx : Option DocxProps) :
    ∃ rest, process_document fp b pdfAvailable docxAvailable pdf docx
        = base_fields fp "document" b ++ rest ∧
      ∀ kv ∈ rest, kv.1 ∈ extraKeys "document" := by
  simp only [process_document]
  split
  · cases pdf with
    | none => exact ⟨_, rfl, by simp⟩
    | some p =>
      obtain ⟨pc, meta⟩ := p
      rcases meta with _ | ⟨ti, au, su, cr, pr, creation⟩
      · exact ⟨_, rfl, keys_of_fst _ (by simp [extraKeys])⟩
      · rcases creation with _ | (_ | d) <;>
          exact ⟨_, rfl, keys_of_fst _ (by simp [extraKeys])⟩
  split
  · cases docx with
    | none => exact ⟨_, rfl, by simp⟩
    | some d => exact ⟨_, rfl, keys_of_fst _ (by simp [extraKeys])⟩
  · exact ⟨_, rfl, by simp⟩

theorem process_generic_spec (fp : String) (b : BaseInfo) :
    ∃ rest, process_generic fp b = base_fields fp "unknown" b ++ rest ∧
      ∀ kv ∈ rest, kv.1 ∈ extraKeys "unknown" :=
  ⟨[], by simp [process_generic], by simp⟩

theorem extract_record_spec (env : Env) (fp : String)
    (r : List (String × Val)) (h : extract_record env fp = .ok r) :
    ∃ cat b rest, r = base_fields fp cat b ++ rest ∧
      ∀ kv ∈ rest, kv.1 ∈ extraKeys cat := by
  cases hb : (env.file fp).base with
  | error e => simp [extract_record, hb] at h
  | ok b =>
    rw [extract_record] at h
    simp only [hb] at h
    split at h
    · obtain ⟨rest, heq, hkeys⟩ := process_image_spec fp b (env.file fp).exif
        (env.file fp).pil
      injection h with h
      exact ⟨"image", b, rest, by rw [← h, heq], hkeys⟩
    · obtain ⟨rest, heq, hkeys⟩ := process_video_spec fp b env.mpAvailable
        (env.file fp).video
      injection h with h
      exact ⟨"video", b, rest, by rw [← h, heq], hkeys⟩
    · obtain ⟨rest, heq, hkeys⟩ := process_audio_spec fp b (env.file fp).audioTag
        (env.file fp).audioInfo
      injection h with h
      exact ⟨"audio", b, rest, by rw [← h, heq], hkeys⟩
    · obtain ⟨rest, heq, hkeys⟩ := process_document_spec fp b env.pdfAvailable
        env.docxAvailable (env.file fp).pdf (env.file fp).docx
      injection h with h
      exact ⟨"document", b, rest, by rw [← h, heq], hkeys⟩
    · obtain ⟨rest, heq, hkeys⟩ := process_generic_spec fp b
      injection h with h
      exact ⟨"unknown", b, rest, by rw [← h, heq], hkeys⟩

/-- Whether extraction raises for this path in this environment (the
condition under which `process_file` returns `None`). -/
def extraction_fails (env : Env) (file_path : String) : Bool :=
  match extract_record env file_path with
  | .ok _ => false
  | .error _ => true

/-- The records the batch collects, in completion order. -/
def batch_successes (env : Env) (l : List String) :
    List (List (String × Val)) :=
  l.filterMap (fun fp => match extract_record env fp with
    | .ok r => some r
    | .error _ => none)

/-- The error entries the batch accumulates, in completion order. -/
def batch_failures (env : Env) (l : List String) : List ErrorEntry :=
  l.filterMap (fun fp => match extract_record env fp with
    | .ok _ => none
    | .error e => some ⟨fp, e, "processing_error"⟩)

theorem extract_record_ne_nil (env : Env) (fp : String)
    (r : List (String × Val)) (h : extract_record env fp = .ok r) :
    r.isEmpty = false := by
  obtain ⟨cat, b, rest, heq, _⟩ := extract_record_spec env fp r h
  subst heq
  simp [base_fields]

theorem batch_foldl_spec (env : Env) (l : List String) :
    ∀ (st : AggState) (s f : Nat),
      l.foldl (batch_step env) (st, s, f)
        = (⟨st.results ++ batch_successes env l,
            st.errors ++ batch_failures env l⟩,
           s + l.countP (fun fp => !(extraction_fails env fp)),
           f + l.countP (fun fp => extraction_fails env fp)) := by
  induction l with
  | nil =>
    intro st s f
    simp [batch_successes, batch_failures]
  | cons hd tl ih =>
    intro st s f
    rw [List.foldl_cons]
    cases hrec : extract_record env hd with
    | ok r =>
      have hne := extract_record_ne_nil env hd r hrec
      have hstep : batch_step env (st, s, f) hd
          = (⟨st.results ++ [r], st.errors⟩, s + 1, f) := by
        simp [batch_step, run_task, process_file, hrec, hne]
      rw [hstep, ih]
      simp [batch_successes, batch_failures, extraction_fails, hrec,
            List.countP_cons, Prod.ext_iff, AggState.mk.injEq,
            List.append_assoc]
      omega
    | error e =>
      have hstep : batch_step env (st, s, f) hd
          = (⟨st.results, st.errors ++ [⟨hd, e, "processing_error"⟩]⟩, s, f + 1) := by
        simp [batch_step, run_task, process_file, hrec]
      rw [hstep, ih]
      simp [batch_successes, batch_failures, extraction_fails, hrec,
            List.countP_cons, Prod.ext_iff, AggState.mk.injEq,
            List.append_assoc]
      omega

theorem batch_successes_length (env : Env) (l : List String) :
    (batch_successes env l).length
      = l.countP (fun fp => !(extraction_fails env fp)) := by
  induction l with
  | nil => simp [batch_successes]
  | cons hd tl ih =>
    cases hrec : extract_record env hd with
    | ok r =>
      have hc : batch_successes env (hd :: tl) = r :: batch_successes env tl := by
        simp [batch_successes, List.filterMap_cons, hrec]
      rw [hc, List.length_cons, ih, List.countP_cons]
      simp [extraction_fails, hrec]
    | error e =>
      have hc : batch_successes env (hd :: tl) = batch_successes env tl := by
        simp [batch_successes, List.filterMap_cons, hrec]
      rw [hc, ih, List.countP_cons]
      simp [extraction_fails, hrec]

theorem batch_failures_length (env : Env) (l : List String) :
    (batch_failures env l).length
      = l.countP (fun fp => extraction_fails env fp) := by
  induction l with
  | nil => simp [batch_failures]
  | cons hd tl ih =>
    cases hrec : extract_record env hd with
    | ok r =>
      have hc : batch_failures env (hd :: tl) = batch_failures env tl := by
        simp [batch_failures, List.filterMap_cons, hrec]
      rw [hc, ih, List.countP_cons]
      simp [extraction_fails, hrec]
    | error e =>
      have hc : batch_failures env (hd :: tl)
          = ⟨hd, e, "processing_error"⟩ :: batch_failures env tl := by
        simp [batch_failures, List.filterMap_cons, hrec]
      rw [hc, List.length_cons, ih, List.countP_cons]
      simp [extraction_fails, hrec]

theorem batch_failures_etype (env : Env) (l : List String) :
    ∀ err ∈ batch_failures env l, err.etype = "processing_error" := by
  intro err herr
  simp only [batch_failures, List.mem_filterMap] at herr
  obtain ⟨fp, _, hsome⟩ := herr
  revert hsome
  cases hrec : extract_record env fp <;> simp
  rintro rfl
  rfl

theorem countP_not_add (p : α → Bool) (l : List α) :
    l.countP (fun a => !(p a)) + l.countP p = l.length := by
  induction l with
  | nil => simp
  | cons hd tl ih => cases hp : p hd <;> simp [List.countP_cons, hp] <;> omega

/-- Claim C2: over `N` submitted paths of which exactly `K` fail extraction, for
any worker-pool size from 1 through `N` and any completion order,
`process_batch` reports `successful = N - K`, `failed = K`, and exactly `K`
error entries; every path is accounted for
(`successful + failed = total_files`), so a failing file never aborts the
batch. -/
theorem process_batch_counts (env : Env) (st : AggState)
    (file_list completion_order : List String) (max_workers : Nat)
    (hperm : completion_order.Perm file_list)
    (h1 : 1 ≤ max_workers) (h2 : max_workers ≤ file_list.length) :
    (process_batch env st file_list max_workers completion_order).2.successful
      = file_list.length
        - (file_list.filter (fun fp => extraction_fails env fp)).length ∧
    (process_batch env st file_list max_workers completion_order).2.failed
      = (file_list.filter (fun fp => extraction_fails env fp)).length ∧
    (process_batch env st file_list max_workers completion_order).2.errors.length
      = (file_list.filter (fun fp => extraction_fails env fp)).length ∧
    (process_batch env st file_list max_workers completion_order).2.successful
        + (process_batch env st file_list max_workers completion_order).2.failed
      = (process_batch env st file_list max_workers completion_order).2.total_files := by
  have hfold := batch_foldl_spec env completion_order
    { st with results := [], errors := [] } 0 0
  have hcount := countP_not_add (fun fp => extraction_fails env fp) file_list
  have hlenf := file_list.countP_eq_length_filter
    (fun fp => extraction_fails env fp)
  have hK : completion_order.countP (fun fp => extraction_fails env fp)
      = (file_list.filter (fun fp => extraction_fails env fp)).length := by
    rw [hperm.countP_eq, List.countP_eq_length_filter]
  have hS : completion_order.countP (fun fp => !(extraction_fails env fp))
      = file_list.length
        - (file_list.filter (fun fp => extraction_fails env fp)).length := by
    rw [hperm.countP_eq]
    omega
  simp only [process_batch, hfold, Nat.zero_add, List.nil_append]
  refine ⟨hS, hK, ?_, ?_⟩
  · rw [batch_failures_length, hK]
  · rw [hS, hK]
    have hle := List.length_filter_le (fun fp => extraction_fails env fp) file_list
    omega

/-- An environment in which `a.jpg` extracts cleanly (base fields only) and
`b.jpg` is unreadable (its stat/MIME calls raise). -/
def envW : Env :=
  ⟨fun fp =>
    if fp = "b.jpg" then
      ⟨.error "unreadable", none, none, none, none, none, none, none⟩
    else
      ⟨.ok ⟨1, "image/jpeg", 0, 0⟩, none, none, none, none, none, none, none⟩,
   true, true, true⟩

/-- Witness for C2: two paths, one failing, one worker. -/
theorem process_batch_counts_witness :
    (process_batch envW ⟨[], []⟩ ["a.jpg", "b.jpg"] 1 ["a.jpg", "b.jpg"]).2.successful = 1 ∧
    (process_batch envW ⟨[], []⟩ ["a.jpg", "b.jpg"] 1 ["a.jpg", "b.jpg"]).2.failed = 1 ∧
    (process_batch envW ⟨[], []⟩ ["a.jpg", "b.jpg"] 1 ["a.jpg", "b.jpg"]).2.errors.length = 1 := by
  have h := process_batch_counts envW ⟨[], []⟩ ["a.jpg", "b.jpg"]
    ["a.jpg", "b.jpg"] 1 (List.Perm.refl _) (by decide) (by decide)
  have hk : ((["a.jpg", "b.jpg"] : List String).filter
      (fun fp => extraction_fails envW fp)).length = 1 := by decide
  obtain ⟨hsucc, hfail, herr, _⟩ := h
  rw [hsucc, hfail, herr, hk]
  exact ⟨rfl, rfl, rfl⟩

/-- Claim C9: `process_file` converts every exception escaping extraction into a
`processing_error` entry and returns `None` rather than raising; a worker
task therefore always resolves with `process_file`'s return value, so the
`execution_error` branch of `process_batch` never fires — every error
recorded by a batch is classified `processing_error`. -/
theorem process_file_error_classification (env : Env) (st : AggState)
    (fp : String) :
    (∀ e, extract_record env fp = .error e →
      process_file env st fp
        = ({ st with errors := st.errors ++ [⟨fp, e, "processing_error"⟩] },
           none)) ∧
    run_task env st fp = Except.ok (process_file env st fp) ∧
    (∀ (st' : AggState) (file_list completion_order : List String)
        (max_workers : Nat),
      ∀ err ∈ (process_batch env st' file_list max_workers
          completion_order).1.errors,
        err.etype = "processing_error") := by
  refine ⟨?_, rfl, ?_⟩
  · intro e he
    simp [process_file, he]
  · intro st' fl co mw err hmem
    have hfold := batch_foldl_spec env co
      { st' with results := [], errors := [] } 0 0
    simp only [process_batch, hfold, List.nil_append] at hmem
    exact batch_failures_etype env co err hmem

/-- Witness for C9 at the unreadable file `b.jpg`. -/
theorem process_file_error_classification_witness :
    process_file envW ⟨[], []⟩ "b.jpg"
      = (⟨[], [⟨"b.jpg", "unreadable", "processing_error"⟩]⟩, none) ∧
    run_task envW ⟨[], []⟩ "b.jpg"
      = Except.ok (process_file envW ⟨[], []⟩ "b.jpg") ∧
    (⟨"b.jpg", "unreadable", "processing_error"⟩ : ErrorEntry).etype
      = "processing_error" := by
  have h := process_file_error_classification envW ⟨[], []⟩ "b.jpg"
  refine ⟨?_, h.2.1, ?_⟩
  · have h1 := h.1 "unreadable" (by rfl)
    simpa using h1
  · exact h.2.2 ⟨[], []⟩ ["b.jpg"] ["b.jpg"] 1
      ⟨"b.jpg", "unreadable", "processing_error"⟩ (by decide)

/-- Claim C10: every `process_batch` call clears the accumulated collectors
before processing — its outcome is independent of any previously stored
state — and afterwards the stored results are exactly that call's
successful records (`length = successful`) and the stored errors exactly
that call's entries (`length = failed`, and they are the returned
`errors`); `get_results` returns exactly the stored results. -/
theorem process_batch_clears_state (env : Env) (st st' : AggState)
    (file_list completion_order : List String) (max_workers : Nat) :
    process_batch env st file_list max_workers completion_order
      = process_batch env st' file_list max_workers completion_order ∧
    (process_batch env st file_list max_workers completion_order).1.results.length
      = (process_batch env st file_list max_workers completion_order).2.successful ∧
    (process_batch env st file_list max_workers completion_order).1.errors.length
      = (process_batch env st file_list max_workers completion_order).2.failed ∧
    (process_batch env st file_list max_workers completion_order).1.errors
      = (process_batch env st file_list max_workers completion_order).2.errors ∧
    get_results (process_batch env st file_list max_workers completion_order).1
      = (process_batch env st file_list max_workers completion_order).1.results := by
  have hfold := batch_foldl_spec env completion_order
    { st with results := [], errors := [] } 0 0
  refine ⟨rfl, ?_, ?_, ?_, rfl⟩
  · simp only [process_batch, hfold, List.nil_append, Nat.zero_add]
    exact batch_successes_length env completion_order
  · simp only [process_batch, hfold, List.nil_append, Nat.zero_add]
    exact batch_failures_length env completion_order
  · simp only [process_batch, hfold]

/-- Claim C6: every record collected by a batch carries all seven base fields
with non-`None` values, and every key it contains is either a base key or
a category-specific key of the extractor named by its own `file_type`
field. -/
theorem batch_records_schema (env : Env) (st : AggState)
    (file_list completion_order : List String) (max_workers : Nat) :
    ∀ r ∈ (process_batch env st file_list max_workers completion_order).1.results,
      ∃ cat, r.lookup "file_type" = some (Val.vStr cat) ∧
        (∀ k ∈ base_keys, ∃ v, r.lookup k = some v ∧ v ≠ Val.vNone) ∧
        (∀ kv ∈ r, kv.1 ∈ base_keys ++ extraKeys cat) := by
  intro r hr
  have hfold := batch_foldl_spec env completion_order
    { st with results := [], errors := [] } 0 0
  simp only [process_batch, hfold, List.nil_append] at hr
  simp only [batch_successes, List.mem_filterMap] at hr
  obtain ⟨fp, _, hsome⟩ := hr
  revert hsome
  cases hrec : extract_record env fp with
  | error e => simp
  | ok rr =>
    intro hsome
    have hr' : rr = r := by simpa using hsome
    subst hr'
    obtain ⟨cat, b, rest, heq, hkeys⟩ := extract_record_spec env fp rr hrec
    subst heq
    refine ⟨cat, ?_, ?_, ?_⟩
    · exact lookup_append_left _ _ _ _ (baseType_lookup fp cat b)
    · intro k hk
      obtain ⟨v, hv, hvne⟩ := base_fields_lookup fp cat b k hk
      exact ⟨v, lookup_append_left _ _ _ _ hv, hvne⟩
    · intro kv hkv
      rcases List.mem_append.1 hkv with h | h
      · exact List.mem_append_left _ (base_fields_keys fp cat b kv h)
      · exact List.mem_append_right _ (hkeys kv h)

/-- Witness for C6: the record produced for `a.jpg` in the two-file batch. -/
theorem batch_records_schema_witness :
    ∃ cat, (base_fields "a.jpg" "image" ⟨1, "image/jpeg", 0, 0⟩).lookup "file_type"
        = some (Val.vStr cat) ∧
      (∀ k ∈ base_keys, ∃ v,
        (base_fields "a.jpg" "image" ⟨1, "image/jpeg", 0, 0⟩).lookup k = some v ∧
          v ≠ Val.vNone) ∧
      (∀ kv ∈ base_fields "a.jpg" "image" ⟨1, "image/jpeg", 0, 0⟩,
        kv.1 ∈ base_keys ++ extraKeys cat) :=
  batch_records_schema envW ⟨[], []⟩ ["a.jpg", "b.jpg"] ["a.jpg", "b.jpg"] 1
    (base_fields "a.jpg" "image" ⟨1, "image/jpeg", 0, 0⟩) (by decide)

end Exif
